import Mathlib

/-!
Shallow embedding of the ps-lite RDMA van / transport layer
(src/rdma_van.h and the RDMA/IPC transport file), together with
theorems settling the specification claims about it.

Conventions:
- machine pointers and keys are modelled as Nat addresses;
- a C++ CHECK failure is the Outcome.checkFail result;
- C++ undefined behaviour (e.g. std::queue::front on an empty queue)
  is the Outcome.undef result;
- an operation that completes returns Outcome.ok with its value.
-/

namespace PsRdma

/-- Result of an operation that can abort on a CHECK or hit undefined
behaviour. -/
inductive Outcome (α : Type) where
  | ok (val : α)
  | checkFail
  | undef
deriving DecidableEq

/-- Source helper align_floor from rdma_utils: v - v % align. -/
def align_floor (v align : Nat) : Nat := v - v % align

/-- Source helper align_ceil from rdma_utils: align_floor (v + align - 1) align. -/
def align_ceil (v align : Nat) : Nat := align_floor (v + align - 1) align

/-- Opcode of a posted ibv send work request (the ones this code uses). -/
inductive WROpcode where
  | rdmaWrite
  | rdmaWriteWithImm
  | sendWithImm
deriving DecidableEq

/-- One posted send work request, with its single scatter-gather entry. -/
structure SendWR where
  opcode : WROpcode
  signaled : Bool
  imm : Option Nat
  sgeAddr : Nat
  sgeLen : Nat
  sgeLkey : Nat
  remoteAddr : Nat
  rkey : Nat
deriving DecidableEq

/-- A registered memory region (the fields of an ibv_mr this code reads). -/
structure MemReg where
  addr : Nat
  lkey : Nat
  rkey : Nat
deriving DecidableEq

/-- The per-message outbound buffer (struct MessageBuffer): packed-meta
inline buffer and the (region, length) pairs recorded by PrepareData. -/
structure MessageBuffer where
  inlineLen : Nat
  inlineBuf : Nat
  mrs : List (MemReg × Nat)
deriving DecidableEq

/-- Default (region, length) pair used for out-of-range list reads. -/
def dfltMr : MemReg × Nat := (⟨0, 0, 0⟩, 0)

/-- RDMATransport::RDMAWriteWithImm. If msg_buf->mrs.size() == 3 it first
posts an unsignaled RDMA_WRITE of mrs[1] (the values) to
remote_addr + align_ceil(inline_len, pagesize), then the signaled
RDMA_WRITE_WITH_IMM of the packed meta to remote_addr carrying idx.
Otherwise it asserts mrs.size() == 0 (CHECK_EQ) and posts only the
signaled meta write. localKey models mempool_->LocalKey. -/
def rdmaWriteWithImm (pagesize : Nat) (localKey : Nat → Nat)
    (buf : MessageBuffer) (remoteAddr rkey idx : Nat) : Outcome (List SendWR) :=
  let metaWR : SendWR :=
    { opcode := .rdmaWriteWithImm, signaled := true, imm := some idx,
      sgeAddr := buf.inlineBuf, sgeLen := buf.inlineLen,
      sgeLkey := localKey buf.inlineBuf,
      remoteAddr := remoteAddr, rkey := rkey }
  if buf.mrs.length = 3 then
    let m := buf.mrs.getD 1 dfltMr
    let valWR : SendWR :=
      { opcode := .rdmaWrite, signaled := false, imm := none,
        sgeAddr := m.1.addr, sgeLen := m.2, sgeLkey := m.1.lkey,
        remoteAddr := remoteAddr + align_ceil buf.inlineLen pagesize,
        rkey := rkey }
    .ok [valWR, metaWR]
  else if buf.mrs.length = 0 then
    .ok [metaWR]
  else
    .checkFail

/-- One data field of a Message: its base address and byte size. -/
structure DataField where
  addr : Nat
  size : Nat
deriving DecidableEq

/-- RDMATransport::PrepareData: for a push request, record a
(region, length) pair for each data field, skipping fields of size 0
(mirroring RegisterMemory, which also skips empty fields); for any
other message kind it records nothing. mrOf models the mem_mr_map_
lookup of the region registered for a base address. -/
def prepareDataMrs (mrOf : Nat → MemReg) (push request : Bool)
    (data : List DataField) : List (MemReg × Nat) :=
  if push && request then
    (data.filter (fun f => f.size ≠ 0)).map (fun f => (mrOf f.addr, f.size))
  else []

/-- The RDMA-transport send path of a push request once the remote address
is known: PrepareData followed by RDMAWriteWithImm. -/
def sendPushRequestRDMA (pagesize : Nat) (localKey : Nat → Nat)
    (mrOf : Nat → MemReg) (inlineLen inlineBuf : Nat)
    (data : List DataField) (remoteAddr rkey idx : Nat) : Outcome (List SendWR) :=
  let mrs := prepareDataMrs mrOf true true data
  rdmaWriteWithImm pagesize localKey ⟨inlineLen, inlineBuf, mrs⟩ remoteAddr rkey idx

/-! ### Address pool (AddressPool<T> in rdma_van.h) -/

/-- Pool capacity kMaxEntries from the source. -/
def kMaxEntries : Nat := 512

/-- AddressPool state: the FIFO queue of free indices (head = front of the
std::queue) and the slot table. Stored pointers are modelled as Nat
addresses (0 = nullptr). -/
structure AddressPool where
  indices : List Nat
  table : List (Option Nat)
deriving DecidableEq

/-- The freshly constructed pool: indices 0..511 pushed in order, all
slots null. -/
def initPool : AddressPool :=
  ⟨List.range kMaxEntries, List.replicate kMaxEntries none⟩

/-- AddressPool::StoreAddress. The source first CHECKs the pointer, then
reads indices_.front() and pops it — undefined behaviour when the queue
is empty — then CHECKs the slot is empty and fills it. -/
def storeAddress (p : AddressPool) (ptr : Nat) : Outcome (Nat × AddressPool) :=
  if ptr = 0 then .checkFail
  else
    match p.indices with
    | [] => .undef
    | idx :: rest =>
      if p.table.getD idx none = none then
        .ok (idx, ⟨rest, p.table.set idx (some ptr)⟩)
      else .checkFail

/-- AddressPool::GetAddressAndRelease. Reads table_[index] (undefined
behaviour when index is out of bounds), CHECKs the slot is populated,
pushes the index to the back of the free queue and clears the slot. -/
def getAddressAndRelease (p : AddressPool) (idx : Nat) : Outcome (Nat × AddressPool) :=
  if kMaxEntries ≤ idx then .undef
  else
    match p.table.getD idx none with
    | none => .checkFail
    | some v => .ok (v, ⟨p.indices ++ [idx], p.table.set idx none⟩)

/-- States of the pool reachable from construction by successful
store / release operations (a failed operation aborts the process). -/
inductive PoolReach : AddressPool → Prop where
  | init : PoolReach initPool
  | store (p : AddressPool) (ptr i : Nat) (q : AddressPool) :
      PoolReach p → storeAddress p ptr = .ok (i, q) → PoolReach q
  | release (p : AddressPool) (idx v : Nat) (q : AddressPool) :
      PoolReach p → getAddressAndRelease p idx = .ok (v, q) → PoolReach q

/-- Well-formedness of a pool state: the table has full capacity, the free
queue has no duplicates, and it holds exactly the indices whose slot is
empty. -/
def poolWF (p : AddressPool) : Prop :=
  p.table.length = kMaxEntries ∧
  p.indices.Nodup ∧
  (∀ i ∈ p.indices, i < kMaxEntries ∧ p.table.getD i none = none) ∧
  (∀ i, i < kMaxEntries → p.table.getD i none = none → i ∈ p.indices)

/-! ### Rendezvous address cache (RDMAVan::HasRemoteInfo / StoreRemoteInfo) -/

/-- Remote landing descriptor: (remote_addr, rkey, idx). -/
abbrev RemoteTuple := Nat × Nat × Nat

/-- Lookup in an association list keyed by a (key, peer) pair. -/
def alookup {β : Type} : List ((Nat × Nat) × β) → Nat → Nat → Option β
  | [], _, _ => none
  | (kr, t) :: rest, k, r => if kr = (k, r) then some t else alookup rest k r

/-- Lookup in an association list keyed by a message-buffer address. -/
def blookup {β : Type} : List (Nat × β) → Nat → Option β
  | [], _ => none
  | (b, t) :: rest, b0 => if b = b0 then some t else blookup rest b0

/-- Remove the entry for a message-buffer address. -/
def berase {β : Type} (l : List (Nat × β)) (b : Nat) : List (Nat × β) :=
  l.filter (fun e => e.1 ≠ b)

/-- The shared rendezvous-cache state of RDMAVan: push_addr_, pull_addr_
and msgbuf_cache_. -/
structure CState where
  pushAddr : List ((Nat × Nat) × RemoteTuple)
  pullAddr : List ((Nat × Nat) × RemoteTuple)
  msgbufCache : List (Nat × (Nat × Bool × Nat))
deriving DecidableEq

/-- The map consulted for a direction: push_addr_ or pull_addr_. -/
def addrOf (s : CState) (isPush : Bool) : List ((Nat × Nat) × RemoteTuple) :=
  if isPush then s.pushAddr else s.pullAddr

/-- RDMAVan::HasRemoteInfo: true when (key, recver) is cached for the
direction; otherwise records (msg_buf ↦ (key, is_push, recver)) in
msgbuf_cache_ (emplace: an existing entry is kept) and returns false. -/
def hasRemoteInfo (s : CState) (bufId key : Nat) (isPush : Bool) (recver : Nat) :
    Bool × CState :=
  if (alookup (addrOf s isPush) key recver).isSome then (true, s)
  else
    (false,
      if (blookup s.msgbufCache bufId).isSome then s
      else { s with msgbufCache := (bufId, (key, isPush, recver)) :: s.msgbufCache })

/-- RDMAVan::StoreRemoteInfo: a reply for an uncached buffer (control
message) is ignored; otherwise the (remote_addr, rkey, idx) triple is
recorded under (key, recver) in the map of the buffer's direction and the
msgbuf_cache_ entry is erased. -/
def storeRemoteInfo (s : CState) (bufId remoteAddr rkey idx : Nat) : CState :=
  match blookup s.msgbufCache bufId with
  | none => s
  | some (key, isPush, recver) =>
    let s1 :=
      if isPush then
        { s with pushAddr := ((key, recver), (remoteAddr, rkey, idx)) :: s.pushAddr }
      else
        { s with pullAddr := ((key, recver), (remoteAddr, rkey, idx)) :: s.pullAddr }
    { s1 with msgbufCache := berase s1.msgbufCache bufId }

/-- The control path a SendMsg takes: a two-sided RendezvousStart or the
direct one-sided RDMA write. -/
inductive Route where
  | rendezvous
  | directWrite
deriving DecidableEq

/-- The routing decision of RDMAVan::SendMsg: a non-data message always
uses rendezvous; a data message uses the direct write exactly when
HasRemoteInfo finds the cached triple, else it sends RendezvousStart. -/
def sendMsgRoute (s : CState) (bufId key : Nat) (isPush : Bool) (recver : Nat)
    (validPushpull : Bool) : Route × CState :=
  if validPushpull then
    let hs := hasRemoteInfo s bufId key isPush recver
    (if hs.1 then .directWrite else .rendezvous, hs.2)
  else (.rendezvous, s)

/-- Events that mutate the rendezvous-cache state: a SendMsg of any
message, or the CQ poller handling a RendezvousReply. -/
inductive CEvent where
  | send (bufId key : Nat) (isPush : Bool) (recver : Nat) (valid : Bool)
  | reply (bufId remoteAddr rkey idx : Nat)

/-- One event step on the cache state. -/
def cstep (s : CState) : CEvent → CState
  | .send b k p r v => (sendMsgRoute s b k p r v).2
  | .reply b a rk i => storeRemoteInfo s b a rk i

/-- Run a list of events. -/
def crun (s : CState) (evs : List CEvent) : CState := evs.foldl cstep s

/-! ### Server tensor-info registry (RDMAVan::StoreWorkerTensorAddress) -/

/-- (len, addr, rkey) as stored per (key, sender). -/
abbrev TensorInfo := Nat × Nat × Nat

/-- RDMAVan::StoreWorkerTensorAddress: first push from a sender for a key
stores (len, addr, rkey); a subsequent push must match componentwise
(CHECK_EQ ×3, mismatch aborts) and leaves the map unchanged. -/
def storeWorkerTensorAddress (m : List ((Nat × Nat) × TensorInfo))
    (key sender : Nat) (t : TensorInfo) :
    Outcome (List ((Nat × Nat) × TensorInfo)) :=
  match alookup m key sender with
  | none => .ok (((key, sender), t) :: m)
  | some t0 => if t = t0 then .ok m else .checkFail

/-! ### Receive flows (RDMATransport::RecvXxx) -/

/-- The relevant fields of the Meta record. -/
structure Meta where
  push : Bool
  request : Bool
  key : Nat
  valLen : Nat
  addr : Nat
  optionField : Nat
  sender : Nat
  recver : Nat
deriving DecidableEq

/-- The per-inbound-message BufferContext. -/
structure BufferCtx where
  buffer : Nat
  metaLen : Nat
  dataNum : Nat
  dataLen : List Nat
deriving DecidableEq

/-- One data field handed up by a RecvXxx flow: either a fresh small copy
of a meta scalar (CreateFunctionalSarray, which mallocs and memcpys
size bytes of the given value), a zero-copy view of len bytes at a
buffer address (SArray::reset with a no-op deleter), or the default
empty SArray. -/
inductive RecvField where
  | scalarCopy (value : Nat) (size : Nat)
  | view (addr : Nat) (len : Nat)
  | emptySArray
deriving DecidableEq

/-- RDMATransport::RecvPushRequest: CHECKs this is a push request with
data_num == 3, then builds [keys, vals, lens] where vals is a zero-copy
view of data_len[1] bytes at buffer + align_ceil(meta_len, pagesize). -/
def recvPushRequest (pagesize : Nat) (meta : Meta) (ctx : BufferCtx)
    (metaLen : Nat) : Outcome (List RecvField) :=
  if meta.push && meta.request then
    if ctx.dataNum = 3 then
      .ok [ .scalarCopy meta.key 8,
            .view (ctx.buffer + align_ceil metaLen pagesize) (ctx.dataLen.getD 1 0),
            .scalarCopy meta.valLen 4 ]
    else .checkFail
  else .checkFail

/-- RDMATransport::RecvPullRequest: builds [keys, vals] where vals is an
empty SArray added only to pass the kvapp check. -/
def recvPullRequest (meta : Meta) (_ctx : BufferCtx) (_metaLen : Nat) :
    Outcome (List RecvField) :=
  .ok [ .scalarCopy meta.key 8, .emptySArray ]

/-- RDMATransport::RecvPushResponse: CHECKs data_num == 0 and adds no
data fields. -/
def recvPushResponse (_meta : Meta) (ctx : BufferCtx) (_metaLen : Nat) :
    Outcome (List RecvField) :=
  if ctx.dataNum = 0 then .ok [] else .checkFail

/-- RDMATransport::RecvPullResponse: builds [keys, vals, lens] where vals
is a zero-copy view of meta.val_len bytes at meta.addr. -/
def recvPullResponse (meta : Meta) (_ctx : BufferCtx) (_metaLen : Nat) :
    Outcome (List RecvField) :=
  .ok [ .scalarCopy meta.key 8,
        .view meta.addr meta.valLen,
        .scalarCopy meta.valLen 4 ]

/-! ### RDMAVan::Bind retry loop -/

/-- The retry port the source draws on failure i: 10000 + rand % 40000. -/
def retryPort (r : Nat) : Nat := 10000 + r % 40000

/-- The body of the Bind retry loop. bindOk tells whether rdma_bind_addr
succeeds on a port; rands is the rand_r draw at each failed attempt;
fuel counts the remaining retries (max_retry - i). Returns the final
value of the port variable and the number of bind attempts made. -/
def bindGo (bindOk : Nat → Bool) (rands : Nat → Nat) :
    Nat → Nat → Nat → Int × Nat
  | _, 0, port => if bindOk port then ((port : Int), 1) else (-1, 1)
  | i, fuel + 1, port =>
    if bindOk port then ((port : Int), 1)
    else
      let rec0 := bindGo bindOk rands (i + 1) fuel (retryPort (rands i))
      (rec0.1, rec0.2 + 1)

/-- RDMAVan::Bind(node, max_retry): run the retry loop starting from
node.port with max_retry + 1 total attempts. -/
def bindModel (bindOk : Nat → Bool) (rands : Nat → Nat)
    (nodePort maxRetry : Nat) : Int × Nat :=
  bindGo bindOk rands 0 maxRetry nodePort

/-! ### IPC transport pull-response async copy -/

/-- IPCTransport::AsyncCopy job record. -/
structure AsyncCopyJob where
  msgBuf : Nat
  remoteTuple : RemoteTuple
  dst : Nat
  src : Nat
  len : Nat
  shutdown : Bool
deriving DecidableEq

/-- The async-copy machinery state: the per-thread queues (each list is
one queue, front at the head) and the atomic round-robin counter. -/
structure IPCState where
  nthreads : Nat
  queues : List (List AsyncCopyJob)
  counter : Nat
deriving DecidableEq

/-- IPCTransport::SendPullResponse with async copy enabled: build the job
{msg_buf, remote_tuple, shm_addr, addr, val_len, shutdown=false}, grab
cnt = cpy_counter_.fetch_add(1) and push the job onto queue
cnt % nthreads. -/
def sendPullResponseAsync (s : IPCState) (msgBuf : Nat) (rt : RemoteTuple)
    (shmAddr srcAddr valLen : Nat) : IPCState :=
  let m : AsyncCopyJob := ⟨msgBuf, rt, shmAddr, srcAddr, valLen, false⟩
  let q := s.counter % s.nthreads
  { s with
    counter := s.counter + 1,
    queues := s.queues.set q (s.queues.getD q [] ++ [m]) }

/-- Observable actions of a copy worker. -/
inductive CopyAction where
  | memcpyA (dst src len : Nat)
  | writeImm (msgBuf raddr rkey idx : Nat)
deriving DecidableEq

/-- The body of IPCTransport::AsyncCopyThread for one dequeued job: a
shutdown sentinel ends the loop; a job with len == 0 is skipped
(continue); otherwise memcpy(dst, src, len) and then
RDMAWriteWithImm(msg_buf, remote_tuple). -/
def processJob (m : AsyncCopyJob) : List CopyAction :=
  if m.shutdown then []
  else if m.len = 0 then []
  else [ .memcpyA m.dst m.src m.len,
         .writeImm m.msgBuf m.remoteTuple.1 m.remoteTuple.2.1 m.remoteTuple.2.2 ]

/-! ### RDMAVan::PackWorkerTensorAddress -/

/-- RDMAVan::PackWorkerTensorAddress: only acts on a pull response
(otherwise the message is returned untouched); CHECKs that
tensor_info_map_ holds an entry for (key, recver) — a miss aborts — and
overwrites meta.val_len / meta.addr / meta.option with the stored
(len, addr, rkey) triple. SendMsg calls this before PackMeta, so the
packed metadata carries the overwritten values. -/
def packWorkerTensorAddress (tm : List ((Nat × Nat) × TensorInfo))
    (meta : Meta) : Outcome Meta :=
  if meta.push || meta.request then .ok meta
  else
    match alookup tm meta.key meta.recver with
    | none => .checkFail
    | some t =>
      .ok { meta with valLen := t.1, addr := t.2.1, optionField := t.2.2 }

/-! ### Helper lemmas on lists -/

/-- Reading a slot just written (within bounds) returns the new value. -/
theorem getD_set_self {α : Type} (l : List α) (i : Nat) (a d : α)
    (h : i < l.length) : (l.set i a).getD i d = a := by
  induction l generalizing i with
  | nil => simp at h
  | cons x xs ih =>
    cases i with
    | zero => rfl
    | succ i =>
      simp only [List.set_cons_succ, List.getD_cons_succ]
      exact ih i (by simpa using h)

/-- Writing one slot leaves every other slot unchanged. -/
theorem getD_set_ne {α : Type} (l : List α) (i j : Nat) (a d : α)
    (h : i ≠ j) : (l.set i a).getD j d = l.getD j d := by
  induction l generalizing i j with
  | nil => rfl
  | cons x xs ih =>
    cases i with
    | zero =>
      cases j with
      | zero => exact absurd rfl h
      | succ j => rfl
    | succ i =>
      cases j with
      | zero => rfl
      | succ j =>
        simp only [List.set_cons_succ, List.getD_cons_succ]
        exact ih i j (fun hh => h (congrArg Nat.succ hh))

/-- Every slot of an all-none table reads none. -/
theorem getD_replicate_none (n i : Nat) :
    (List.replicate n (none : Option Nat)).getD i none = none := by
  induction n generalizing i with
  | zero => rfl
  | succ n ih =>
    cases i with
    | zero => rfl
    | succ i => exact ih i

/-! ### Claim C1 -/

/-- C1 (amended): for every call to RDMAWriteWithImm, if msg_buf carries
three recorded (region, length) pairs then exactly two work requests are
posted, first an unsignaled RDMA_WRITE of the values segment mrs[1] to
remote_addr + align_ceil(inline meta length, pagesize), then a signaled
RDMA_WRITE_WITH_IMM of the packed metadata to remote_addr carrying
immediate idx; if msg_buf->mrs is empty only the single signaled metadata
write is posted; for any other mrs size the CHECK_EQ(mrs.size(), 0)
assertion fails and the process aborts. -/
theorem c1_write_with_imm_amended (pagesize : Nat) (localKey : Nat → Nat)
    (buf : MessageBuffer) (remoteAddr rkey idx : Nat) :
    (buf.mrs.length = 3 →
      rdmaWriteWithImm pagesize localKey buf remoteAddr rkey idx =
        Outcome.ok
          [ { opcode := .rdmaWrite, signaled := false, imm := none,
              sgeAddr := (buf.mrs.getD 1 dfltMr).1.addr,
              sgeLen := (buf.mrs.getD 1 dfltMr).2,
              sgeLkey := (buf.mrs.getD 1 dfltMr).1.lkey,
              remoteAddr := remoteAddr + align_ceil buf.inlineLen pagesize,
              rkey := rkey },
            { opcode := .rdmaWriteWithImm, signaled := true, imm := some idx,
              sgeAddr := buf.inlineBuf, sgeLen := buf.inlineLen,
              sgeLkey := localKey buf.inlineBuf,
              remoteAddr := remoteAddr, rkey := rkey } ])
    ∧ (buf.mrs.length = 0 →
      rdmaWriteWithImm pagesize localKey buf remoteAddr rkey idx =
        Outcome.ok
          [ { opcode := .rdmaWriteWithImm, signaled := true, imm := some idx,
              sgeAddr := buf.inlineBuf, sgeLen := buf.inlineLen,
              sgeLkey := localKey buf.inlineBuf,
              remoteAddr := remoteAddr, rkey := rkey } ])
    ∧ (buf.mrs.length ≠ 3 → buf.mrs.length ≠ 0 →
      rdmaWriteWithImm pagesize localKey buf remoteAddr rkey idx =
        Outcome.checkFail) := by
  refine ⟨fun h3 => ?_, fun h0 => ?_, fun h3 h0 => ?_⟩
  · simp [rdmaWriteWithImm, h3]
  · have : buf.mrs.length ≠ 3 := by omega
    simp [rdmaWriteWithImm, h0, this]
  · simp [rdmaWriteWithImm, h3, h0]

/-- C1 counterexample: a call whose msg_buf holds one recorded region
(reachable: a push request whose values and lengths fields are empty but
whose keys field is not) does not post the single signaled metadata
write the claim promises for every non-three case — it fails the
CHECK_EQ(mrs.size(), 0) assertion and aborts. -/
theorem c1_counterexample :
    rdmaWriteWithImm 4096 (fun _ => 9) ⟨100, 77, [(⟨1, 2, 3⟩, 8)]⟩ 20000 42 5 =
      Outcome.checkFail
    ∧ (⟨100, 77, [(⟨1, 2, 3⟩, 8)]⟩ : MessageBuffer).mrs.length ≠ 3
    ∧ (Outcome.checkFail : Outcome (List SendWR)) ≠
        Outcome.ok [ ⟨.rdmaWriteWithImm, true, some 5, 77, 100, 9, 20000, 42⟩ ] := by
  decide

/-- C1 witness: the amended theorem evaluated on a concrete three-field
push buffer. -/
theorem c1_witness :
    rdmaWriteWithImm 4096 (fun _ => 9)
        ⟨100, 77, [(⟨1, 2, 3⟩, 8), (⟨4, 5, 6⟩, 1024), (⟨7, 8, 9⟩, 4)]⟩ 20000 42 5 =
      Outcome.ok [ ⟨.rdmaWrite, false, none, 4, 1024, 5, 20000 + 4096, 42⟩,
                   ⟨.rdmaWriteWithImm, true, some 5, 77, 100, 9, 20000, 42⟩ ] := by
  have h := (c1_write_with_imm_amended 4096 (fun _ => 9)
      ⟨100, 77, [(⟨1, 2, 3⟩, 8), (⟨4, 5, 6⟩, 1024), (⟨7, 8, 9⟩, 4)]⟩ 20000 42 5).1 (by decide)
  simpa [align_ceil, align_floor, dfltMr] using h

/-! ### Claim C6 -/

/-- C6: the claim says a push request with val_len = 0 completes without
an RDMA_WRITE of the value segment. On the RDMA transport the code
contradicts its own assertion: RegisterMemory / PrepareData skip the
empty values field, so a push with non-empty keys and lengths fields
records two (region, length) pairs, and RDMAWriteWithImm then fails
CHECK_EQ(mrs.size(), 0) and aborts instead of completing. This theorem
evaluates the send path at the failing input (field sizes 8, 0, 4). -/
theorem c6_zero_val_push_aborts :
    sendPushRequestRDMA 4096 (fun _ => 0) (fun a => ⟨a, 0, 0⟩) 100 50
        [⟨1, 8⟩, ⟨2, 0⟩, ⟨3, 4⟩] 4096 7 9 = Outcome.checkFail
    ∧ (prepareDataMrs (fun a => ⟨a, 0, 0⟩) true true
        [⟨1, 8⟩, ⟨2, 0⟩, ⟨3, 4⟩]).length = 2 := by
  decide

/-! ### Claim C5 -/

/-- Full behaviour of the Bind retry loop, proved by induction on the
remaining retries: the attempt count is bounded, a -1 result means the
first try failed and every attempt was used, and a non-failure result is
a port the bind predicate accepted — the starting port itself or a retry
port in the range 10000..49999. -/
theorem bindGo_spec (bindOk : Nat → Bool) (rands : Nat → Nat) :
    ∀ (fuel i port : Nat),
      (bindGo bindOk rands i fuel port).2 ≤ fuel + 1
      ∧ ((bindGo bindOk rands i fuel port).1 = -1 →
          bindOk port = false ∧ (bindGo bindOk rands i fuel port).2 = fuel + 1)
      ∧ ((bindGo bindOk rands i fuel port).1 ≠ -1 →
          bindOk (bindGo bindOk rands i fuel port).1.toNat = true
          ∧ ((bindGo bindOk rands i fuel port).1 = (port : Int)
             ∨ (10000 ≤ (bindGo bindOk rands i fuel port).1
                ∧ (bindGo bindOk rands i fuel port).1 < 50000))) := by
  intro fuel
  induction fuel with
  | zero =>
    intro i port
    by_cases hb : bindOk port <;> simp [bindGo, hb]
  | succ fuel ih =>
    intro i port
    by_cases hb : bindOk port
    · simp [bindGo, hb]
    · have h := ih (i + 1) (retryPort (rands i))
      have hrange : 10000 ≤ (retryPort (rands i) : Int)
          ∧ (retryPort (rands i) : Int) < 50000 := by
        unfold retryPort
        have := Nat.mod_lt (rands i) (y := 40000) (by omega)
        omega
      simp only [bindGo, hb, if_false, Bool.false_eq_true]
      refine ⟨by omega, fun hm1 => ?_, fun hnm1 => ?_⟩
      · have := h.2.1 hm1
        exact ⟨by simp [hb], by omega⟩
      · have := h.2.2 hnm1
        refine ⟨this.1, Or.inr ?_⟩
        rcases this.2 with heq | hr
        · rw [heq]; exact hrange
        · exact hr

/-- C5 (amended): Bind makes at most max_retry + 1 bind attempts, drawing
retry ports from the range 10000..49999; on success it returns the port
value passed to the successful attempt — node.port itself when the first
bind succeeds (including node.port = 0, for which it returns 0 rather
than the kernel-assigned port), otherwise a retry port in
10000..49999 — and when every attempt fails it returns -1. -/
theorem c5_bind_amended (bindOk : Nat → Bool) (rands : Nat → Nat)
    (nodePort maxRetry : Nat) :
    (bindModel bindOk rands nodePort maxRetry).2 ≤ maxRetry + 1
    ∧ ((bindModel bindOk rands nodePort maxRetry).1 = -1 →
        bindOk nodePort = false
        ∧ (bindModel bindOk rands nodePort maxRetry).2 = maxRetry + 1)
    ∧ ((bindModel bindOk rands nodePort maxRetry).1 ≠ -1 →
        bindOk (bindModel bindOk rands nodePort maxRetry).1.toNat = true
        ∧ ((bindModel bindOk rands nodePort maxRetry).1 = (nodePort : Int)
           ∨ (10000 ≤ (bindModel bindOk rands nodePort maxRetry).1
              ∧ (bindModel bindOk rands nodePort maxRetry).1 < 50000)))
    ∧ (∀ r, 10000 ≤ retryPort r ∧ retryPort r < 50000) := by
  have h := bindGo_spec bindOk rands maxRetry 0 nodePort
  refine ⟨h.1, h.2.1, h.2.2, fun r => ?_⟩
  unfold retryPort
  have := Nat.mod_lt r (y := 40000) (by omega)
  omega

/-- C5 counterexample: in an environment where binding node.port = 0
succeeds immediately (rdma_bind_addr on port 0 succeeds and the kernel
assigns an ephemeral port), Bind returns 0 — not a port in the range
10000..49999 as the claim states for node.port = 0. -/
theorem c5_counterexample :
    bindModel (fun _ => true) (fun _ => 0) 0 5 = ((0 : Int), 1)
    ∧ ¬ ((10000 : Int) ≤ (bindModel (fun _ => true) (fun _ => 0) 0 5).1) := by
  decide

/-- C5 witness: a conflicted starting port 8000 with retries that land on
port 10000 which is free: the bound result satisfies the predicate and
lies in the retry range. -/
theorem c5_witness :
    (fun p => p == 10000)
        (bindModel (fun p => p == 10000) (fun _ => 0) 8000 2).1.toNat = true
    ∧ ((bindModel (fun p => p == 10000) (fun _ => 0) 8000 2).1 = ((8000 : Nat) : Int)
       ∨ (10000 ≤ (bindModel (fun p => p == 10000) (fun _ => 0) 8000 2).1
          ∧ (bindModel (fun p => p == 10000) (fun _ => 0) 8000 2).1 < 50000)) :=
  (c5_bind_amended (fun p => p == 10000) (fun _ => 0) 8000 2).2.2.1 (by decide)

/-! ### Claim C3 -/

/-- C3: the first push received for a (key, sender) pair stores its
(len, addr, rkey) triple; a subsequent store of the identical triple
leaves the registry unchanged; a store whose triple differs in any
component fails the CHECK_EQ assertions and aborts the process. -/
theorem c3_store_tensor (m : List ((Nat × Nat) × TensorInfo))
    (key sender : Nat) (t t0 : TensorInfo) :
    (alookup m key sender = none →
      storeWorkerTensorAddress m key sender t = Outcome.ok (((key, sender), t) :: m)
      ∧ alookup (((key, sender), t) :: m) key sender = some t)
    ∧ (alookup m key sender = some t →
      storeWorkerTensorAddress m key sender t = Outcome.ok m)
    ∧ (alookup m key sender = some t0 → t ≠ t0 →
      storeWorkerTensorAddress m key sender t = Outcome.checkFail) := by
  refine ⟨fun hn => ⟨?_, ?_⟩, fun hs => ?_, fun hs hne => ?_⟩
  · simp [storeWorkerTensorAddress, hn]
  · simp [alookup]
  · simp [storeWorkerTensorAddress, hs]
  · simp [storeWorkerTensorAddress, hs, hne]

/-- C3 witness: the theorem evaluated on the empty registry and a fresh
(key, sender) pair. -/
theorem c3_witness :
    storeWorkerTensorAddress [] 5 1 (10, 20, 30) = Outcome.ok [((5, 1), (10, 20, 30))]
    ∧ alookup [((5, 1), (10, 20, 30))] 5 1 = some (10, 20, 30) :=
  (c3_store_tensor [] 5 1 (10, 20, 30) (0, 0, 0)).1 rfl

/-! ### Claim C4 -/

/-- C4 (amended): receive flows rebuild data views from the landing
buffer without copying payload bytes, but only the push-request and
pull-response flows produce the three-field keys/values/lengths view —
with the values field a zero-copy view at
buffer + align_ceil(meta_len, pagesize), respectively at meta.addr; the
pull-request flow produces a two-field view whose values entry is an
empty array, and the push-response flow adds no data fields at all. The
keys and lengths entries are fresh 8- and 4-byte copies of meta scalars,
never of payload. -/
theorem c4_recv_flows_amended (pagesize : Nat) (meta : Meta)
    (ctx : BufferCtx) (metaLen : Nat) :
    (meta.push = true → meta.request = true → ctx.dataNum = 3 →
      recvPushRequest pagesize meta ctx metaLen =
        Outcome.ok [ .scalarCopy meta.key 8,
                     .view (ctx.buffer + align_ceil metaLen pagesize) (ctx.dataLen.getD 1 0),
                     .scalarCopy meta.valLen 4 ])
    ∧ recvPullRequest meta ctx metaLen =
        Outcome.ok [ .scalarCopy meta.key 8, .emptySArray ]
    ∧ (ctx.dataNum = 0 → recvPushResponse meta ctx metaLen = Outcome.ok [])
    ∧ recvPullResponse meta ctx metaLen =
        Outcome.ok [ .scalarCopy meta.key 8,
                     .view meta.addr meta.valLen,
                     .scalarCopy meta.valLen 4 ] := by
  refine ⟨fun hp hr h3 => ?_, rfl, fun h0 => ?_, rfl⟩
  · simp [recvPushRequest, hp, hr, h3]
  · simp [recvPushResponse, h0]

/-- C4 counterexample: the pull-request flow rebuilds only two data
fields and the push-response flow rebuilds none, so the claimed
three-field view does not hold for all four flows. -/
theorem c4_counterexample :
    recvPullRequest ⟨false, true, 7, 0, 0, 0, 0, 0⟩ ⟨0, 0, 0, []⟩ 10 =
      Outcome.ok [RecvField.scalarCopy 7 8, RecvField.emptySArray]
    ∧ [RecvField.scalarCopy 7 8, RecvField.emptySArray].length ≠ 3
    ∧ recvPushResponse ⟨true, false, 7, 0, 0, 0, 0, 0⟩ ⟨0, 0, 0, []⟩ 10 = Outcome.ok []
    ∧ ([] : List RecvField).length ≠ 3 := by
  decide

/-- C4 witness: the amended theorem evaluated on a concrete push request
landing in a buffer at address 1000 with a 100-byte packed meta. -/
theorem c4_witness :
    recvPushRequest 4096 ⟨true, true, 7, 1024, 0, 0, 0, 0⟩ ⟨1000, 100, 3, [8, 1024, 4]⟩ 100 =
      Outcome.ok [ RecvField.scalarCopy 7 8,
                   RecvField.view (1000 + align_ceil 100 4096) ([8, 1024, 4].getD 1 0),
                   RecvField.scalarCopy 1024 4 ] :=
  (c4_recv_flows_amended 4096 ⟨true, true, 7, 1024, 0, 0, 0, 0⟩
      ⟨1000, 100, 3, [8, 1024, 4]⟩ 100).1 rfl rfl rfl

/-! ### Claim C9 -/

/-- C9 (amended): with async copy enabled, SendPullResponse enqueues the
job (msg_buf, remote_triple, dst, src, len, shutdown=false) on the queue
of copy worker counter mod nthreads and increments the counter, leaving
every other queue untouched; a worker that dequeues a non-shutdown job
with len > 0 performs the memcpy of len bytes from src to dst and then
issues the signaled metadata write with the job's remote triple; a job
with len = 0 is skipped entirely — neither the copy nor the metadata
write happens. -/
theorem c9_ipc_async_amended (s : IPCState) (hq : s.queues.length = s.nthreads)
    (hn : 0 < s.nthreads) (msgBuf shmAddr srcAddr valLen : Nat)
    (rt : RemoteTuple) (m : AsyncCopyJob) :
    ((sendPullResponseAsync s msgBuf rt shmAddr srcAddr valLen).counter = s.counter + 1
     ∧ (sendPullResponseAsync s msgBuf rt shmAddr srcAddr valLen).queues.getD
           (s.counter % s.nthreads) []
         = s.queues.getD (s.counter % s.nthreads) []
             ++ [⟨msgBuf, rt, shmAddr, srcAddr, valLen, false⟩]
     ∧ ∀ j, j ≠ s.counter % s.nthreads →
         (sendPullResponseAsync s msgBuf rt shmAddr srcAddr valLen).queues.getD j []
           = s.queues.getD j [])
    ∧ (m.shutdown = false → 0 < m.len →
        processJob m = [ CopyAction.memcpyA m.dst m.src m.len,
                         CopyAction.writeImm m.msgBuf m.remoteTuple.1
                           m.remoteTuple.2.1 m.remoteTuple.2.2 ])
    ∧ (m.shutdown = false → m.len = 0 → processJob m = []) := by
  refine ⟨⟨rfl, ?_, fun j hj => ?_⟩, fun hs hl => ?_, fun hs hl => ?_⟩
  · exact getD_set_self _ _ _ _ (by rw [hq]; exact Nat.mod_lt _ hn)
  · exact getD_set_ne _ _ _ _ _ (fun hh => hj hh.symm)
  · have : m.len ≠ 0 := by omega
    simp [processJob, hs, this]
  · simp [processJob, hs, hl]

/-- C9 counterexample: a dequeued pull-response job with len = 0 (and
shutdown = false) triggers neither the memcpy nor the signaled metadata
write — the worker skips it — contradicting the claim that every
dequeued job gets the copy and then the metadata write. -/
theorem c9_counterexample :
    processJob ⟨1, (2, 3, 4), 5, 6, 0, false⟩ = []
    ∧ (⟨1, (2, 3, 4), 5, 6, 0, false⟩ : AsyncCopyJob).shutdown = false
    ∧ ∀ a ∈ ([] : List CopyAction), False := by
  exact ⟨rfl, rfl, by simp⟩

/-- C9 witness: the amended theorem evaluated on a two-worker state and a
10-byte job. -/
theorem c9_witness :
    processJob ⟨1, (2, 3, 4), 5, 6, 10, false⟩ =
      [CopyAction.memcpyA 5 6 10, CopyAction.writeImm 1 2 3 4] :=
  (c9_ipc_async_amended ⟨2, [[], []], 0⟩ rfl (by decide) 0 0 0 0 (0, 0, 0)
      ⟨1, (2, 3, 4), 5, 6, 10, false⟩).2.1 rfl (by decide)

/-! ### Claim C10 -/

/-- C10: for every pull response the server sends, PackWorkerTensorAddress
aborts (CHECK_NE fails) when tensor_info_map_ has no entry for
(key, recver) — so a server can only answer a pull from a worker that
has pushed that key — and otherwise overwrites the outgoing meta's
val_len, addr and option fields with the stored (len, addr, rkey) triple
before the meta is packed. -/
theorem c10_pack_pull_response (tm : List ((Nat × Nat) × TensorInfo))
    (meta : Meta) (hpush : meta.push = false) (hreq : meta.request = false) :
    (alookup tm meta.key meta.recver = none →
      packWorkerTensorAddress tm meta = Outcome.checkFail)
    ∧ (∀ t, alookup tm meta.key meta.recver = some t →
      packWorkerTensorAddress tm meta =
        Outcome.ok { meta with valLen := t.1, addr := t.2.1, optionField := t.2.2 }) := by
  refine ⟨fun hn => ?_, fun t ht => ?_⟩
  · simp [packWorkerTensorAddress, hpush, hreq, hn]
  · simp [packWorkerTensorAddress, hpush, hreq, ht]

/-- C10 witness: the theorem evaluated on a registry holding key 5 for
receiver 2, with the stored triple (10, 20, 30) overwriting the meta. -/
theorem c10_witness :
    packWorkerTensorAddress [((5, 2), (10, 20, 30))] ⟨false, false, 5, 0, 0, 0, 0, 2⟩ =
      Outcome.ok ⟨false, false, 5, 10, 20, 30, 0, 2⟩ :=
  (c10_pack_pull_response [((5, 2), (10, 20, 30))] ⟨false, false, 5, 0, 0, 0, 0, 2⟩
      rfl rfl).2 (10, 20, 30) rfl

/-! ### Claim C2 -/

/-- Consing an entry onto an address map cannot destroy an existing
lookup result. -/
theorem alookup_cons_isSome {β : Type} (l : List ((Nat × Nat) × β))
    (kr : Nat × Nat) (t : β) (k r : Nat)
    (h : (alookup l k r).isSome = true) :
    (alookup ((kr, t) :: l) k r).isSome = true := by
  by_cases hkr : kr = (k, r) <;> simp [alookup, hkr, h]

/-- A SendMsg step never modifies push_addr_ or pull_addr_: routing only
reads them, and a rendezvous miss touches only msgbuf_cache_. -/
theorem sendMsgRoute_addr (s : CState) (b k : Nat) (p : Bool) (r : Nat)
    (v : Bool) :
    ((sendMsgRoute s b k p r v).2).pushAddr = s.pushAddr
    ∧ ((sendMsgRoute s b k p r v).2).pullAddr = s.pullAddr := by
  unfold sendMsgRoute hasRemoteInfo
  split_ifs <;> simp

/-- StoreRemoteInfo preserves a cached (key, recver) entry of either
direction map: it only conses new entries or leaves the maps untouched. -/
theorem storeRemoteInfo_mono (s : CState) (b a rk i key recver : Nat)
    (isPush : Bool)
    (h : (alookup (addrOf s isPush) key recver).isSome = true) :
    (alookup (addrOf (storeRemoteInfo s b a rk i) isPush) key recver).isSome = true := by
  rcases hb : blookup s.msgbufCache b with _ | ⟨k0, p0, r0⟩
  · unfold storeRemoteInfo; rw [hb]; exact h
  · unfold storeRemoteInfo; rw [hb]
    cases p0 with
    | true =>
      cases isPush with
      | true => exact alookup_cons_isSome s.pushAddr (k0, r0) (a, rk, i) key recver h
      | false => exact h
    | false =>
      cases isPush with
      | true => exact h
      | false => exact alookup_cons_isSome s.pullAddr (k0, r0) (a, rk, i) key recver h

/-- Each event step preserves a cached (key, recver) entry of either
direction map. -/
theorem cstep_mono (s : CState) (e : CEvent) (key recver : Nat) (isPush : Bool)
    (h : (alookup (addrOf s isPush) key recver).isSome = true) :
    (alookup (addrOf (cstep s e) isPush) key recver).isSome = true := by
  cases e with
  | send b k p r v =>
    have ha := sendMsgRoute_addr s b k p r v
    have heq : addrOf (cstep s (CEvent.send b k p r v)) isPush = addrOf s isPush := by
      cases isPush <;> simp [cstep, addrOf, ha.1, ha.2]
    rw [heq]; exact h
  | reply b a rk i => exact storeRemoteInfo_mono s b a rk i key recver isPush h

/-- Any event sequence preserves a cached entry. -/
theorem crun_mono (evs : List CEvent) (s : CState) (key recver : Nat)
    (isPush : Bool)
    (h : (alookup (addrOf s isPush) key recver).isSome = true) :
    (alookup (addrOf (crun s evs) isPush) key recver).isSome = true := by
  induction evs generalizing s with
  | nil => exact h
  | cons e rest ih => exact ih (cstep s e) (cstep_mono s e key recver isPush h)

/-- C2: once a rendezvous has completed for (key, peer, direction) — the
triple is recorded in push_addr_ or pull_addr_ — the entry survives every
later SendMsg and RendezvousReply event, and any later SendMsg of a data
message for that triple routes to the direct RDMA write, never sending
another RendezvousStart. -/
theorem c2_no_repeat_rendezvous (s : CState) (key recver bufId : Nat)
    (isPush : Bool) (evs : List CEvent)
    (h : (alookup (addrOf s isPush) key recver).isSome = true) :
    (alookup (addrOf (crun s evs) isPush) key recver).isSome = true
    ∧ (sendMsgRoute (crun s evs) bufId key isPush recver true).1 =
        Route.directWrite := by
  have hm := crun_mono evs s key recver isPush h
  refine ⟨hm, ?_⟩
  simp [sendMsgRoute, hasRemoteInfo, hm]

/-- C2 witness: a state whose push map caches key 5 for peer 2; after a
rendezvous-miss send of a different key and the matching reply, a send
for (5, push, 2) still routes to the direct write. -/
theorem c2_witness :
    (sendMsgRoute (crun ⟨[((5, 2), (100, 8, 3))], [], []⟩
        [CEvent.send 1 6 true 2 true, CEvent.reply 1 200 9 4]) 99 5 true 2 true).1 =
      Route.directWrite :=
  (c2_no_repeat_rendezvous ⟨[((5, 2), (100, 8, 3))], [], []⟩ 5 2 99 true
      [CEvent.send 1 6 true 2 true, CEvent.reply 1 200 9 4] (by decide)).2

/-! ### Claims C7 and C8 -/

set_option maxRecDepth 10000

/-- The freshly constructed pool is well-formed. -/
theorem poolWF_init : poolWF initPool := by
  refine ⟨?_, List.nodup_range kMaxEntries, fun i hi => ⟨?_, ?_⟩, fun i hi _ => ?_⟩
  · simp [initPool]
  · exact List.mem_range.mp hi
  · exact getD_replicate_none kMaxEntries i
  · exact List.mem_range.mpr hi

/-- Inversion of a successful StoreAddress: the pointer was non-null, the
handed-out index was the head of the free queue, its slot was empty, and
the new state pops the queue and fills the slot. -/
theorem storeAddress_ok_inv (p : AddressPool) (ptr i : Nat) (q : AddressPool)
    (hs : storeAddress p ptr = .ok (i, q)) :
    ptr ≠ 0 ∧ p.indices = i :: q.indices ∧ p.table.getD i none = none
    ∧ q.table = p.table.set i (some ptr) := by
  unfold storeAddress at hs
  split at hs
  · cases hs
  · rename_i hp
    split at hs
    · cases hs
    · rename_i idx rest hidx
      split at hs
      · rename_i ht
        injection hs with hs
        injection hs with hi hq
        subst hi
        subst hq
        exact ⟨hp, by rw [hidx], ht, rfl⟩
      · cases hs

/-- Inversion of a successful GetAddressAndRelease: the index was in
bounds and its slot populated with the returned pointer; the new state
appends the index at the queue tail and clears the slot. -/
theorem releaseAddress_ok_inv (p : AddressPool) (idx v : Nat) (q : AddressPool)
    (hr : getAddressAndRelease p idx = .ok (v, q)) :
    idx < kMaxEntries ∧ p.table.getD idx none = some v
    ∧ q.indices = p.indices ++ [idx] ∧ q.table = p.table.set idx none := by
  unfold getAddressAndRelease at hr
  split at hr
  · cases hr
  · rename_i hb
    split at hr
    · cases hr
    · rename_i v0 ht
      injection hr with hr
      injection hr with hv hq
      subst hv
      subst hq
      exact ⟨by omega, ht, rfl, rfl⟩

/-- Evaluation of StoreAddress on a destructured non-empty queue. -/
theorem storeAddress_cons (idxs : List Nat) (tab : List (Option Nat))
    (idx : Nat) (rest : List Nat) (ptr : Nat) (hptr : ptr ≠ 0)
    (hidx : idxs = idx :: rest) (ht : tab.getD idx none = none) :
    storeAddress ⟨idxs, tab⟩ ptr = .ok (idx, ⟨rest, tab.set idx (some ptr)⟩) := by
  subst hidx
  have ht2 : tab[idx]?.getD none = none := by
    rw [← List.getD_eq_getElem?_getD]
    exact ht
  simp [storeAddress, hptr, ht, ht2]

/-- A successful StoreAddress keeps the pool well-formed. -/
theorem poolWF_store (p : AddressPool) (hwf : poolWF p) (ptr i : Nat)
    (q : AddressPool) (hs : storeAddress p ptr = .ok (i, q)) : poolWF q := by
  obtain ⟨hlen, hnd, hmem, hcomp⟩ := hwf
  obtain ⟨hp, hidx, ht, htab⟩ := storeAddress_ok_inv p ptr i q hs
  have hnd2 := List.nodup_cons.mp (hidx ▸ hnd)
  have hiMem : i ∈ p.indices := by rw [hidx]; exact List.mem_cons_self _ _
  have hiLt : i < kMaxEntries := (hmem i hiMem).1
  refine ⟨by rw [htab]; simpa using hlen, hnd2.2, fun j hj => ?_,
    fun j hjlt hjn => ?_⟩
  · have hjMem : j ∈ p.indices := by rw [hidx]; exact List.mem_cons_of_mem _ hj
    have hji : i ≠ j := fun hh => hnd2.1 (hh ▸ hj)
    refine ⟨(hmem j hjMem).1, ?_⟩
    rw [htab, getD_set_ne p.table i j _ _ hji]
    exact (hmem j hjMem).2
  · by_cases hji : i = j
    · exfalso
      rw [htab, ← hji, getD_set_self p.table i _ _ (by omega)] at hjn
      cases hjn
    · rw [htab, getD_set_ne p.table i j _ _ hji] at hjn
      have hmem2 := hcomp j hjlt hjn
      rw [hidx] at hmem2
      rcases List.mem_cons.mp hmem2 with hh | hh
      · exact absurd hh.symm hji
      · exact hh

/-- A successful GetAddressAndRelease keeps the pool well-formed. -/
theorem poolWF_release (p : AddressPool) (hwf : poolWF p) (idx v : Nat)
    (q : AddressPool) (hr : getAddressAndRelease p idx = .ok (v, q)) : poolWF q := by
  obtain ⟨hlen, hnd, hmem, hcomp⟩ := hwf
  obtain ⟨hlt, ht, hidx, htab⟩ := releaseAddress_ok_inv p idx v q hr
  have hnotMem : idx ∉ p.indices := fun hh => by
    have := (hmem idx hh).2
    rw [ht] at this
    cases this
  refine ⟨by rw [htab]; simpa using hlen, ?_, fun j hj => ?_,
    fun j hjlt hjn => ?_⟩
  · rw [hidx, List.nodup_append]
    refine ⟨hnd, List.nodup_singleton idx, fun a ha hb2 => ?_⟩
    rw [List.mem_singleton] at hb2
    exact hnotMem (hb2 ▸ ha)
  · rw [hidx] at hj
    rcases List.mem_append.mp hj with hh | hh
    · have hji : idx ≠ j := fun he => hnotMem (he ▸ hh)
      refine ⟨(hmem j hh).1, ?_⟩
      rw [htab, getD_set_ne p.table idx j _ _ hji]
      exact (hmem j hh).2
    · rw [List.mem_singleton] at hh
      subst hh
      exact ⟨by omega, by rw [htab]; exact getD_set_self p.table j _ _ (by omega)⟩
  · rw [hidx]
    by_cases hji : idx = j
    · exact List.mem_append.mpr (Or.inr (by rw [List.mem_singleton, hji]))
    · rw [htab, getD_set_ne p.table idx j _ _ hji] at hjn
      exact List.mem_append.mpr (Or.inl (hcomp j hjlt hjn))

/-- Every reachable pool state is well-formed. -/
theorem poolReach_wf (p : AddressPool) (h : PoolReach p) : poolWF p := by
  induction h with
  | init => exact poolWF_init
  | store p0 ptr i q _ hs ih => exact poolWF_store p0 ih ptr i q hs
  | release p0 idx v q _ hr ih => exact poolWF_release p0 ih idx v q hr

/-- C7: in every reachable pool state (any interleaving of successful
StoreAddress and GetAddressAndRelease calls) the free-index queue holds,
without duplicates, exactly the indices whose slot is empty; a successful
StoreAddress hands out the head of that FIFO queue, whose slot was empty
— so no two concurrently-live receive buffers ever share an index — and
fills it; GetAddressAndRelease appends the released index at the tail,
so released indices are re-issued in FIFO order of their release; and
while fewer than 512 entries are live (the free queue is non-empty)
StoreAddress of a non-null pointer succeeds. -/
theorem c7_pool_unique_fifo (p : AddressPool) (hre : PoolReach p)
    (ptr i idx v : Nat) (q1 q2 : AddressPool) :
    poolWF p
    ∧ (storeAddress p ptr = .ok (i, q1) →
        p.indices.head? = some i ∧ p.table.getD i none = none
        ∧ q1.indices = p.indices.tail ∧ q1.table.getD i none = some ptr)
    ∧ (getAddressAndRelease p idx = .ok (v, q2) →
        q2.indices = p.indices ++ [idx] ∧ q2.table.getD idx none = none)
    ∧ (p.indices ≠ [] → ptr ≠ 0 → ∃ j r, storeAddress p ptr = .ok (j, r)) := by
  have hwf := poolReach_wf p hre
  obtain ⟨hlen, hnd, hmem, hcomp⟩ := hwf
  refine ⟨⟨hlen, hnd, hmem, hcomp⟩, fun hs => ?_, fun hr => ?_,
    fun hne hptr => ?_⟩
  · obtain ⟨hp, hidx, ht, htab⟩ := storeAddress_ok_inv p ptr i q1 hs
    have hiLt : i < kMaxEntries :=
      (hmem i (by rw [hidx]; exact List.mem_cons_self _ _)).1
    refine ⟨by rw [hidx]; rfl, ht, by rw [hidx]; rfl, ?_⟩
    rw [htab]
    exact getD_set_self p.table i _ _ (by omega)
  · obtain ⟨hlt, ht, hidx, htab⟩ := releaseAddress_ok_inv p idx v q2 hr
    refine ⟨hidx, ?_⟩
    rw [htab]
    exact getD_set_self p.table idx _ _ (by omega)
  · cases hidx : p.indices with
    | nil => exact absurd hidx hne
    | cons idx0 rest =>
      have ht : p.table.getD idx0 none = none :=
        (hmem idx0 (by rw [hidx]; exact List.mem_cons_self _ _)).2
      exact ⟨idx0, ⟨rest, p.table.set idx0 (some ptr)⟩,
        storeAddress_cons p.indices p.table idx0 rest ptr hptr hidx ht⟩

/-- The pool produced by storing pointer 7 into the fresh pool. -/
def poolAfterStore : AddressPool :=
  ⟨(List.range kMaxEntries).tail,
   (List.replicate kMaxEntries (none : Option Nat)).set 0 (some 7)⟩

/-- C7 witness: the theorem applied to the freshly constructed pool and a
concrete store of pointer 7, which hands out index 0. -/
theorem c7_witness :
    poolWF initPool
    ∧ (initPool.indices.head? = some 0 ∧ initPool.table.getD 0 none = none
       ∧ poolAfterStore.indices = initPool.indices.tail
       ∧ poolAfterStore.table.getD 0 none = some 7) := by
  have h := c7_pool_unique_fifo initPool PoolReach.init 7 0 0 0 poolAfterStore initPool
  exact ⟨h.1, h.2.1 (by decide)⟩

/-- A pool with all 512 entries live: the free queue is empty and every
slot is populated. -/
def fullPool : AddressPool := ⟨[], List.replicate kMaxEntries (some 1)⟩

/-- C8 counterexample: StoreAddress on a full pool does not fail through
a defined CHECK abort — it reads std::queue::front() of an empty queue,
which is undefined behaviour (modelled as the distinguished undef
outcome, distinct from a CHECK failure). -/
theorem c8_counterexample :
    storeAddress fullPool 5 = Outcome.undef
    ∧ (Outcome.undef : Outcome (Nat × AddressPool)) ≠ Outcome.checkFail := by
  decide

/-- C8 (amended): StoreAddress on a full pool (empty free queue) hits
undefined behaviour — front() and pop() on an empty std::queue — rather
than a defined abort; GetAddressAndRelease does assert that the slot at
idx is populated (CHECK(ptr)) and aborts when it is empty, returning the
stored pointer and freeing the slot otherwise. -/
theorem c8_pool_failure_amended (p : AddressPool) (ptr idx v : Nat) :
    (p.indices = [] → ptr ≠ 0 → storeAddress p ptr = Outcome.undef)
    ∧ (idx < kMaxEntries → p.table.getD idx none = none →
        getAddressAndRelease p idx = Outcome.checkFail)
    ∧ (idx < kMaxEntries → p.table.getD idx none = some v →
        getAddressAndRelease p idx =
          Outcome.ok (v, ⟨p.indices ++ [idx], p.table.set idx none⟩)) := by
  refine ⟨fun hni hptr => ?_, fun hlt hn => ?_, fun hlt hs => ?_⟩
  · obtain ⟨idxs, tab⟩ := p
    simp only at hni
    subst hni
    simp [storeAddress, hptr]
  · unfold getAddressAndRelease
    rw [if_neg (by omega), hn]
  · unfold getAddressAndRelease
    rw [if_neg (by omega), hs]

/-- C8 witness: the amended theorem applied to the full pool (store hits
undefined behaviour) and to the fresh pool (release of an empty slot hits
the CHECK). -/
theorem c8_witness :
    storeAddress fullPool 5 = Outcome.undef
    ∧ getAddressAndRelease initPool 3 = Outcome.checkFail := by
  have h1 := (c8_pool_failure_amended fullPool 5 3 0).1 rfl (by decide)
  have h2 := (c8_pool_failure_amended initPool 5 3 0).2.1 (by decide) (by decide)
  exact ⟨h1, h2⟩

end PsRdma
